import Mathlib

/-!
Shallow embedding of the `shadow_getLogs` RPC pipeline of shadow-reth
(`crates/rpc/src/apis/get_logs.rs`): filter validation with block-range
resolution, SQL predicate rendering, row decoding to the wire format, and
the request driver.  External collaborators (the reth chain provider, the
string parsers from external crates, and the sqlx store) are modelled as
abstract function records; everything else is translated directly from the
source.  Rust panics (the byte slice `&addr[2..]` in `Display`) are
modelled by `Option`, with `none` standing for a panic.  The store effect
of `get_logs` is made explicit: the driver also returns the list of SQL
query strings it issued, in order.
-/

/-- Hex digit characters `0`-`9`, `a`-`f` (lowercase), as produced by the
`hex` crate used by the source. Input is a value below 16. -/
def hexDigit (n : Nat) : Char :=
  if n < 10 then Char.ofNat (48 + n) else Char.ofNat (87 + n)

/-- Two lowercase hex characters for one byte, high nibble first. -/
def hexEncodeByte (b : Nat) : List Char :=
  [hexDigit (b / 16 % 16), hexDigit (b % 16)]

/-- Lowercase hex encoding of a byte string: models `hex::encode` from the
`hex` crate used by the source (lowercase, two digits per byte). -/
def hexEncode (bs : List Nat) : String :=
  String.mk ((bs.map hexEncodeByte).flatten)

/-- Big-endian base-256 digits of `n`, zero-padded to width `w`. -/
def beBytes : Nat → Nat → List Nat
  | 0, _ => []
  | w + 1, n => beBytes w (n / 256) ++ [n % 256]

/-- The 8 big-endian two's-complement bytes of an `i64`, as produced by
Rust's `i64::to_be_bytes` in `GetLogsResult::from`. -/
def i64ToBeBytes (n : Int) : List Nat :=
  beBytes 8 (n % (2 : Int) ^ 64).toNat

/-- Fixed array of four optional topic strings, `[Option<String>; 4]` in the
source. -/
structure Topics4 where
  t0 : Option String
  t1 : Option String
  t2 : Option String
  t3 : Option String
deriving DecidableEq, Repr

/-- Unvalidated parameters for `shadow_getLogs` requests
(`GetLogsParameters` in the source). -/
structure GetLogsParameters where
  address : List String
  block_hash : Option String
  from_block : Option String
  to_block : Option String
  topics : List String
deriving DecidableEq, Repr

/-- One `shadow_getLogs` request (`GetLogsRpcRequest` in the source). -/
structure GetLogsRpcRequest where
  id : String
  json_rpc : String
  method : String
  params : List GetLogsParameters
deriving DecidableEq, Repr

/-- Inner result type of `shadow_getLogs` responses (`GetLogsResult` in the
source); every field already wire-encoded as a string. -/
structure GetLogsResult where
  address : String
  block_hash : String
  block_number : String
  data : String
  log_index : String
  removed : Bool
  topics : Topics4
  transaction_hash : String
  transaction_index : String
deriving DecidableEq, Repr

/-- `shadow_getLogs` response (`GetLogsResponse` in the source). -/
structure GetLogsResponse where
  id : String
  json_rpc : String
  result : List GetLogsResult
deriving DecidableEq, Repr

/-- One raw row fetched from the `shadow_logs` table (`RawGetLogsRow` in the
source).  Binary columns are byte lists; the sqlx integer columns are `i64`,
modelled as `Int`. -/
structure RawGetLogsRow where
  address : List Nat
  block_hash : List Nat
  block_log_index : Int
  block_number : Int
  data : List Nat
  removed : Bool
  topic_0 : Option (List Nat)
  topic_1 : Option (List Nat)
  topic_2 : Option (List Nat)
  topic_3 : Option (List Nat)
  transaction_hash : List Nat
  transaction_index : Int
  transaction_log_index : Int
deriving DecidableEq, Repr

/-- Validated query parameter object (`ValidatedQueryParams` in the source).
Block bounds are `u64`, modelled as `Nat`. -/
structure ValidatedQueryParams where
  from_block : Nat
  to_block : Nat
  addresses : List String
  topics : Topics4
deriving DecidableEq, Repr

/-- Decoding of one raw row into the wire format: the source's
`impl From<RawGetLogsRow> for GetLogsResult` (named `ofRow` because `from`
is a Lean keyword). -/
def GetLogsResult.ofRow (value : RawGetLogsRow) : GetLogsResult where
  address := "0x" ++ hexEncode value.address
  block_hash := "0x" ++ hexEncode value.block_hash
  block_number := hexEncode (i64ToBeBytes value.block_number)
  data := "0x" ++ hexEncode value.data
  log_index := toString value.block_log_index
  removed := value.removed
  topics :=
    { t0 := value.topic_0.map fun t => "0x" ++ hexEncode t
      t1 := value.topic_1.map fun t => "0x" ++ hexEncode t
      t2 := value.topic_2.map fun t => "0x" ++ hexEncode t
      t3 := value.topic_3.map fun t => "0x" ++ hexEncode t }
  transaction_hash := "0x" ++ hexEncode value.transaction_hash
  transaction_index := toString value.transaction_index

/-- JSON-RPC error object carrying a code and a message, modelling
`jsonrpsee`'s `ErrorObject::owned` as used by the source. -/
structure ErrorObject where
  code : Int
  message : String
deriving DecidableEq, Repr

/-- The `INTERNAL_ERROR_CODE` constant of the JSON-RPC spec, re-exported by
`jsonrpsee` and used for store failures. -/
def INTERNAL_ERROR_CODE : Int := -32603

/-- Block identifier passed to the chain provider.  The source only ever
names the `Latest` constructor of reth's `BlockNumberOrTag`; every other
value reaches it through the external parser, so they are kept abstract. -/
inductive BlockNumberOrTag where
  | latest
  | other (s : String)
deriving DecidableEq, Repr

/-- A block as far as this pipeline looks at it: its `number` field (`u64`). -/
structure Block where
  number : Nat
deriving DecidableEq, Repr

/-- A parsed 32-byte hash (reth's `FixedBytes<32>`); parsing is external, so
the representation is abstract and kept as the parser's output string. -/
abbrev FixedBytes := String

/-- Abstract record of the external collaborators consulted during
validation: reth's chain provider (`block_by_number_or_tag`,
`block_by_hash`), the external string parsers (`BlockNumberOrTag::from_str`,
`FixedBytes::from_str`), and the external `Display` of `BlockNumberOrTag`
used when formatting not-found messages.  Errors are their rendered
`to_string` messages. -/
structure Provider where
  parseNumberOrTag : String → Except String BlockNumberOrTag
  tagToString : BlockNumberOrTag → String
  blockByNumberOrTag : BlockNumberOrTag → Except String (Option Block)
  blockByHash : FixedBytes → Except String (Option Block)
  parseHash : String → Except String FixedBytes

/-- The not-found message used by the source when resolving the implicit
`latest` tag. -/
def noBlockLatestMsg : String := "No block found for block number or tag: latest"

/-- One resolution step against the provider, translated from the match
block the source repeats in every arm of `ValidatedQueryParams::new`:
`Ok(Some(b))` yields the block number, `Ok(None)` fails with the given
not-found message, `Err(e)` surfaces the provider error, all with code -1. -/
def resolveNumberOrTag (p : Provider) (tag : BlockNumberOrTag) (msg : String) :
    Except ErrorObject Nat :=
  match p.blockByNumberOrTag tag with
  | .ok (some b) => .ok b.number
  | .ok none => .error ⟨-1, msg⟩
  | .error e => .error ⟨-1, e⟩

/-- Parse a client block string via the external parser, surfacing parse
errors with code -1, then resolve it; the not-found message interpolates
the parsed tag's `Display`.  Translated from the `from_str` + match blocks
of `ValidatedQueryParams::new`. -/
def resolveTagString (p : Provider) (s : String) : Except ErrorObject Nat := do
  let tag ← match p.parseNumberOrTag s with
    | .ok t => Except.ok t
    | .error e => Except.error (⟨-1, e⟩ : ErrorObject)
  resolveNumberOrTag p tag ("No block found for block number or tag: " ++ p.tagToString tag)

/-- Parse a client block-hash string via the external parser and resolve it
through `block_by_hash`; the not-found message interpolates the raw client
string.  Translated from the `(Some(block_hash), None, None)` arm of
`ValidatedQueryParams::new`. -/
def resolveHashString (p : Provider) (s : String) : Except ErrorObject Nat := do
  let h ← match p.parseHash s with
    | .ok h => Except.ok h
    | .error e => Except.error (⟨-1, e⟩ : ErrorObject)
  match p.blockByHash h with
  | .ok (some b) => Except.ok b.number
  | .ok none => Except.error ⟨-1, "No block found for block hash: " ++ s⟩
  | .error e => Except.error ⟨-1, e⟩

/-- Block-range resolution: the six-arm match over
`(block_hash, from_block, to_block)` opening `ValidatedQueryParams::new`.
The final arm covers Rust's or-pattern
`(Some(_), Some(_), _) | (Some(_), _, Some(_))` because the hash-only arm
precedes it. -/
def resolveBlockRange (p : Provider) (params : GetLogsParameters) :
    Except ErrorObject (Nat × Nat) :=
  match params.block_hash, params.from_block, params.to_block with
  | none, none, none => do
      let num ← resolveNumberOrTag p .latest noBlockLatestMsg
      pure (num, num)
  | none, none, some to_block => do
      let f ← resolveNumberOrTag p .latest noBlockLatestMsg
      let t ← resolveTagString p to_block
      pure (f, t)
  | none, some from_block, none => do
      let f ← resolveTagString p from_block
      let t ← resolveNumberOrTag p .latest noBlockLatestMsg
      pure (f, t)
  | none, some from_block, some to_block => do
      let f ← resolveTagString p from_block
      let t ← resolveTagString p to_block
      pure (f, t)
  | some block_hash, none, none => do
      let num ← resolveHashString p block_hash
      pure (num, num)
  | some _, _, _ =>
      .error ⟨-32001,
        "Parameters fromBlock and toBlock cannot be used if blockHash parameter is present"⟩

/-- The topic-filling loop of `ValidatedQueryParams::new`: place each
supplied topic into its slot by position.  The source only runs it after
checking `topics.len() <= 4`; beyond four entries the Rust loop would index
out of bounds, so the tail is ignored here (unreachable under the check). -/
def fillTopics : List String → Topics4
  | [] => ⟨none, none, none, none⟩
  | [a] => ⟨some a, none, none, none⟩
  | [a, b] => ⟨some a, some b, none, none⟩
  | [a, b, c] => ⟨some a, some b, some c, none⟩
  | a :: b :: c :: d :: _ => ⟨some a, some b, some c, some d⟩

/-- `ValidatedQueryParams::new`: resolve the block range, then reject more
than four topics with code 32002, then build the validated object with the
address list passed through verbatim. -/
def ValidatedQueryParams.new (p : Provider) (params : GetLogsParameters) :
    Except ErrorObject ValidatedQueryParams :=
  match resolveBlockRange p params with
  | .error e => .error e
  | .ok (from_block, to_block) =>
      if params.topics.length > 4 then
        .error ⟨32002, "Only up to four topics are allowed"⟩
      else
        .ok ⟨from_block, to_block, params.address, fillTopics params.topics⟩

/-- Rust's byte slice `&s[2..]`: drops the first two BYTES of the UTF-8
representation; panics (`none`) when the string is shorter than two bytes
or byte 2 is not a character boundary. -/
def sliceFromByte2 : List Char → Option (List Char)
  | [] => none
  | c :: rest =>
    if c.utf8Size = 2 then some rest
    else if c.utf8Size = 1 then
      match rest with
      | [] => none
      | c2 :: rest2 => if c2.utf8Size = 1 then some rest2 else none
    else none

/-- UTF-8 byte length of a string, for stating slice preconditions. -/
def utf8Len (s : String) : Nat :=
  (s.data.map Char.utf8Size).sum

/-- One address literal of the `address IN (...)` clause:
`format!("X'{}'", &addr[2..])` — hex-literal syntax around the raw client
string with its first two bytes sliced off; `none` models the slice panic. -/
def renderAddressLit (addr : String) : Option String :=
  (sliceFromByte2 addr.data).map fun r => "X\x27" ++ String.mk r ++ "\x27"

/-- The `address IN (...)` clause of `Display for ValidatedQueryParams`:
present (inner `some`) iff the address list is non-empty; the outer
`Option` is `none` when some address slice panics. -/
def addressClause (q : ValidatedQueryParams) : Option (Option String) :=
  if !q.addresses.isEmpty then
    (q.addresses.mapM renderAddressLit).map fun lits =>
      some ("address IN (" ++ String.intercalate ", " lits ++ ")")
  else some none

/-- The always-present block-range clause of `Display`. -/
def blockRangeStr (q : ValidatedQueryParams) : String :=
  "block_number BETWEEN " ++ toString q.from_block ++ " AND " ++ toString q.to_block

/-- Topic clause 0 of `Display`: `format!("topic_0 = {t0}")`, the raw topic
string interpolated verbatim. -/
def topic0Clause (q : ValidatedQueryParams) : Option String :=
  q.topics.t0.map fun t0 => "topic_0 = " ++ t0

/-- Topic clause 1 of `Display`. -/
def topic1Clause (q : ValidatedQueryParams) : Option String :=
  q.topics.t1.map fun t1 => "topic_1 = " ++ t1

/-- Topic clause 2 of `Display`. -/
def topic2Clause (q : ValidatedQueryParams) : Option String :=
  q.topics.t2.map fun t2 => "topic_2 = " ++ t2

/-- Topic clause 3 of `Display`. -/
def topic3Clause (q : ValidatedQueryParams) : Option String :=
  q.topics.t3.map fun t3 => "topic_3 = " ++ t3

/-- `impl Display for ValidatedQueryParams`: collect the six optional
clauses in their fixed order, drop the unset ones, and join the rest with
`" AND "` after `WHERE` (empty output if none remain).  `none` models the
address-slice panic. -/
def ValidatedQueryParams.render (q : ValidatedQueryParams) : Option String :=
  match addressClause q with
  | none => none
  | some ac =>
    let clauses : List (Option String) :=
      [ac, some (blockRangeStr q), topic0Clause q, topic1Clause q,
        topic2Clause q, topic3Clause q]
    let filtered := clauses.filterMap id
    some (if !filtered.isEmpty then "WHERE " ++ String.intercalate " AND " filtered
      else "")

/-- The `SELECT ... FROM shadow_logs` base statement of `get_logs`. -/
def baseStmt : String :=
  "\n            SELECT\n                address,\n                block_hash,\n                block_log_index,\n                block_number,\n                data,\n                removed,\n                topic_0,\n                topic_1,\n                topic_2,\n                topic_3,\n                transaction_hash,\n                transaction_index,\n                transaction_log_index\n            FROM shadow_logs\n        "

/-- Abstract log store: `sqlx::query_as(..).fetch_all(&self.pool)` as a
function from the SQL text to either rows or a rendered error message. -/
structure Store where
  fetchAll : String → Except String (List RawGetLogsRow)

/-- Short-circuiting collection of fallible results, as Rust's
`collect::<RpcResult<Vec<_>>>()` over an iterator of `Result`s: the first
error wins, otherwise all values in order. -/
def collectExcept (f : α → Except ε β) : List α → Except ε (List β)
  | [] => .ok []
  | x :: xs => do
      let y ← f x
      let ys ← collectExcept f xs
      pure (y :: ys)

/-- The query loop of `get_logs`: for each validated object render the SQL
(`format!("{base_stmt} {query_params}")`), fetch rows (store errors become
`INTERNAL_ERROR_CODE` errors and abort), decode rows in order, and append.
Also returns the list of SQL strings actually issued, in order; the outer
`none` models a rendering panic. -/
def runQueries (store : Store) :
    List ValidatedQueryParams →
      Option (Except ErrorObject (List GetLogsResult) × List String)
  | [] => some (.ok [], [])
  | q :: rest =>
    match q.render with
    | none => none
    | some rendered =>
      let sql := baseStmt ++ " " ++ rendered
      match store.fetchAll sql with
      | .error e => some (.error ⟨INTERNAL_ERROR_CODE, e⟩, [sql])
      | .ok rows =>
        match runQueries store rest with
        | none => none
        | some (.error e, trace) => some (.error e, sql :: trace)
        | some (.ok others, trace) =>
            some (.ok (rows.map GetLogsResult.ofRow ++ others), sql :: trace)

/-- The `get_logs` RPC handler: validate every filter object first
(short-circuiting on the first validation error, before any store I/O),
then run the queries in order and assemble the response.  The second
component is the ordered list of SQL strings issued to the store; `none`
models a rendering panic. -/
def getLogs (p : Provider) (store : Store) (req : GetLogsRpcRequest) :
    Option (Except ErrorObject GetLogsResponse × List String) :=
  match collectExcept (ValidatedQueryParams.new p) req.params with
  | .error e => some (.error e, [])
  | .ok qs =>
    match runQueries store qs with
    | none => none
    | some (.error e, trace) => some (.error e, trace)
    | some (.ok results, trace) =>
        some (.ok ⟨req.id, req.json_rpc, results⟩, trace)

/-- The rows a single validated object contributes on the happy path: the
store's rows for its SQL, decoded in order (junk `[]` off the happy path). -/
def expectedRows (store : Store) (q : ValidatedQueryParams) : List GetLogsResult :=
  match q.render with
  | none => []
  | some s =>
    match store.fetchAll (baseStmt ++ " " ++ s) with
    | .error _ => []
    | .ok rows => rows.map GetLogsResult.ofRow

/-- Concrete provider mirroring the scenario of the repository's unit test:
a chain whose earliest block is 0 (hash `H0`) and whose latest block is 10
(hash `H10`). -/
def testProvider : Provider where
  parseNumberOrTag s := .ok (if s = "latest" then .latest else .other s)
  tagToString t := match t with | .latest => "latest" | .other s => s
  blockByNumberOrTag t :=
    match t with
    | .latest => .ok (some ⟨10⟩)
    | .other s => if s = "earliest" then .ok (some ⟨0⟩) else .ok none
  blockByHash h :=
    if h = "H0" then .ok (some ⟨0⟩) else if h = "H10" then .ok (some ⟨10⟩) else .ok none
  parseHash s := .ok s

/-- A store with no rows. -/
def emptyStore : Store := ⟨fun _ => .ok []⟩

/-- Concrete raw row with block number 10 and log index 10. -/
def row10 : RawGetLogsRow where
  address := [0x12]
  block_hash := [0xab]
  block_log_index := 10
  block_number := 10
  data := []
  removed := false
  topic_0 := some [0xff]
  topic_1 := none
  topic_2 := none
  topic_3 := none
  transaction_hash := [0x01]
  transaction_index := 3
  transaction_log_index := 0

/-- A store answering every query with the single row `row10`. -/
def sampleStore : Store := ⟨fun _ => .ok [row10]⟩

/-- Filter object with no block locator fields set. -/
def paramsDefaults : GetLogsParameters := ⟨["0x123"], none, none, none, []⟩

/-- Filter object with an explicit `earliest`..`latest` range. -/
def paramsRange : GetLogsParameters := ⟨["0x123"], none, some "earliest", some "latest", []⟩

/-- Filter object locating blocks by hash only. -/
def paramsHashOnly : GetLogsParameters := ⟨["0x123"], some "H0", none, none, []⟩

/-- Filter object violating mutual exclusion: a block hash together with a
block range. -/
def paramsAmbiguous : GetLogsParameters := ⟨["0x123"], some "H0", some "H0", some "H10", []⟩

/-- Filter object with five topics and an ambiguous block locator. -/
def paramsFiveTopicsAmbiguous : GetLogsParameters :=
  ⟨[], some "h", some "x", none, ["a", "b", "c", "d", "e"]⟩

/-- Filter object with five topics and default block locator fields. -/
def paramsFiveTopics : GetLogsParameters :=
  ⟨[], none, none, none, ["a", "b", "c", "d", "e"]⟩

/-- Request wrapping the mutually-exclusive filter object. -/
def reqAmbiguous : GetLogsRpcRequest := ⟨"1", "2.0", "shadow_getLogs", [paramsAmbiguous]⟩

/-- Request wrapping the defaults-only filter object. -/
def reqDefaults : GetLogsRpcRequest := ⟨"1", "2.0", "shadow_getLogs", [paramsDefaults]⟩

/-- The mutual-exclusion error message of `ValidatedQueryParams::new`. -/
def ambiguousRangeMsg : String :=
  "Parameters fromBlock and toBlock cannot be used if blockHash parameter is present"

/-- The validated object produced from `paramsDefaults` against `testProvider`. -/
def qDefaults : ValidatedQueryParams := ⟨10, 10, ["0x123"], ⟨none, none, none, none⟩⟩

theorem collectExcept_ok_mem {f : α → Except ε β} {l : List α} {ys : List β}
    (h : collectExcept f l = .ok ys) {x : α} (hx : x ∈ l) : ∃ y, f x = .ok y := by
  induction l generalizing ys with
  | nil => cases hx
  | cons a as ih =>
    rw [collectExcept] at h
    cases ha : f a with
    | error e => rw [ha] at h; cases h
    | ok y =>
      rw [ha] at h
      cases has : collectExcept f as with
      | error e => rw [has] at h; cases h
      | ok ys2 =>
        rcases List.mem_cons.mp hx with rfl | hmem
        · exact ⟨y, ha⟩
        · exact ih has hmem

theorem collectExcept_ne_ok {f : α → Except ε β} {l : List α} {x : α} {e : ε}
    (hx : x ∈ l) (hfx : f x = .error e) (ys : List β) : collectExcept f l ≠ .ok ys :=
  fun h => by
    obtain ⟨y, hy⟩ := collectExcept_ok_mem h hx
    rw [hfx] at hy
    cases hy

theorem runQueries_trace_ok {store : Store} {qs : List ValidatedQueryParams}
    {res : List GetLogsResult} {trace : List String}
    (h : runQueries store qs = some (.ok res, trace)) :
    ∀ sql ∈ trace, ∃ rows, store.fetchAll sql = .ok rows := by
  induction qs generalizing res trace with
  | nil =>
    rw [runQueries] at h
    injection h with h
    injection h with h1 h2
    subst h2
    intro sql hsql
    cases hsql
  | cons q rest ih =>
    rw [runQueries] at h
    cases hr : q.render with
    | none => rw [hr] at h; cases h
    | some rendered =>
      rw [hr] at h
      simp only at h
      cases hf : store.fetchAll (baseStmt ++ " " ++ rendered) with
      | error e => rw [hf] at h; simp at h
      | ok rows =>
        rw [hf] at h
        cases hrest : runQueries store rest with
        | none => rw [hrest] at h; cases h
        | some pr =>
          obtain ⟨r2, t2⟩ := pr
          cases r2 with
          | error e2 => rw [hrest] at h; simp at h
          | ok others =>
            rw [hrest] at h
            simp only [Option.some_inj, Prod.mk.injEq] at h
            obtain ⟨-, ht⟩ := h
            subst ht
            intro sql hsql
            rcases List.mem_cons.mp hsql with rfl | hmem
            · exact ⟨rows, hf⟩
            · exact ih hrest sql hmem

theorem runQueries_all_ok {store : Store} {qs : List ValidatedQueryParams}
    (h : ∀ q ∈ qs, ∃ s rows, q.render = some s ∧
        store.fetchAll (baseStmt ++ " " ++ s) = .ok rows) :
    runQueries store qs =
      some (.ok ((qs.map (expectedRows store)).flatten),
        qs.filterMap fun q => (q.render).map fun s => baseStmt ++ " " ++ s) := by
  induction qs with
  | nil => rfl
  | cons q rest ih =>
    obtain ⟨s, rows, hr, hf⟩ := h q (List.mem_cons_self q rest)
    have hrest := ih fun q2 hq2 => h q2 (List.mem_cons_of_mem q hq2)
    rw [runQueries, hr]
    simp only
    rw [hf, hrest]
    simp [expectedRows, hr, hf]

theorem optionMapM_isSome {f : α → Option β} {l : List α}
    (h : ∀ x ∈ l, (f x).isSome) : (l.mapM f).isSome := by
  induction l with
  | nil => rw [List.mapM_nil]; rfl
  | cons a as ih =>
    rw [List.mapM_cons]
    obtain ⟨y, hy⟩ := Option.isSome_iff_exists.mp (h a (List.mem_cons_self a as))
    rw [hy]
    obtain ⟨ys, hys⟩ :=
      Option.isSome_iff_exists.mp (ih fun x hx => h x (List.mem_cons_of_mem a hx))
    rw [hys]
    rfl

theorem optionMapM_eq_none {f : α → Option β} {l : List α} {x : α}
    (hx : x ∈ l) (hf : f x = none) : l.mapM f = none := by
  induction l with
  | nil => cases hx
  | cons a as ih =>
    rw [List.mapM_cons]
    rcases List.mem_cons.mp hx with rfl | hmem
    · rw [hf]; rfl
    · cases ha : f a
      · rfl
      · rw [ih hmem]; rfl

theorem filterMap_id_cons (o : Option α) (l : List (Option α)) :
    List.filterMap id (o :: l) = o.toList ++ List.filterMap id l := by
  cases o <;> simp

theorem intercalate_singleton (s a : String) : String.intercalate s [a] = a := by
  simp [String.intercalate, String.intercalate.go]

theorem beBytes_length (w n : Nat) : (beBytes w n).length = w := by
  induction w generalizing n with
  | zero => rfl
  | succ w ih => rw [beBytes]; simp [ih]

theorem hexEncode_length (bs : List Nat) : (hexEncode bs).length = 2 * bs.length := by
  rw [hexEncode]
  show ((bs.map hexEncodeByte).flatten).length = 2 * bs.length
  induction bs with
  | nil => rfl
  | cons b rest ih =>
    simp only [List.map_cons, List.flatten_cons, List.length_append, ih]
    rw [hexEncodeByte]
    simp
    ring

theorem hexDigit_mem_alphabet {n : Nat} (h : n < 16) :
    hexDigit n ∈ ("0123456789abcdef".data) := by
  interval_cases n <;> decide

/-- C1: block-range resolution follows the precedence table over
(blockHash, fromBlock, toBlock) exactly: with nothing set, from = to =
resolve(latest); with only toBlock set, from = resolve(latest) and
to = resolve(toBlock); with only fromBlock set, from = resolve(fromBlock)
and to = resolve(latest); with both set, each resolves independently and
the pair is returned verbatim with no ordering check (f and t arbitrary);
with blockHash alone, from = to = resolve(blockHash).  The first conjunct
ties `ValidatedQueryParams.new` to `resolveBlockRange`. -/
theorem block_range_resolution_precedence (p : Provider) (params : GetLogsParameters) :
    (∀ v, ValidatedQueryParams.new p params = .ok v →
        resolveBlockRange p params = .ok (v.from_block, v.to_block)) ∧
    (params.block_hash = none → params.from_block = none → params.to_block = none →
      ∀ n, resolveNumberOrTag p .latest noBlockLatestMsg = .ok n →
        resolveBlockRange p params = .ok (n, n)) ∧
    (∀ tb, params.block_hash = none → params.from_block = none →
      params.to_block = some tb →
      ∀ f t, resolveNumberOrTag p .latest noBlockLatestMsg = .ok f →
        resolveTagString p tb = .ok t → resolveBlockRange p params = .ok (f, t)) ∧
    (∀ fb, params.block_hash = none → params.from_block = some fb →
      params.to_block = none →
      ∀ f t, resolveTagString p fb = .ok f →
        resolveNumberOrTag p .latest noBlockLatestMsg = .ok t →
        resolveBlockRange p params = .ok (f, t)) ∧
    (∀ fb tb, params.block_hash = none → params.from_block = some fb →
      params.to_block = some tb →
      ∀ f t, resolveTagString p fb = .ok f → resolveTagString p tb = .ok t →
        resolveBlockRange p params = .ok (f, t)) ∧
    (∀ bh, params.block_hash = some bh → params.from_block = none →
      params.to_block = none →
      ∀ n, resolveHashString p bh = .ok n → resolveBlockRange p params = .ok (n, n)) := by
  obtain ⟨addr, bh, fb, tb, tops⟩ := params
  refine ⟨?_, ?_, ?_, ?_, ?_, ?_⟩
  · intro v hv
    rw [ValidatedQueryParams.new] at hv
    cases hrng : resolveBlockRange p ⟨addr, bh, fb, tb, tops⟩ with
    | error e => rw [hrng] at hv; cases hv
    | ok ft =>
      obtain ⟨f, t⟩ := ft
      rw [hrng] at hv
      simp only at hv
      split at hv
      · cases hv
      · injection hv with hv
        subst hv
        rfl
  · rintro rfl rfl rfl n hn
    rw [resolveBlockRange]
    simp only [hn]
    rfl
  · rintro tb2 rfl rfl rfl f t hf ht
    rw [resolveBlockRange]
    simp only [hf, ht]
    rfl
  · rintro fb2 rfl rfl rfl f t hf ht
    rw [resolveBlockRange]
    simp only [hf, ht]
    rfl
  · rintro fb2 tb2 rfl rfl rfl f t hf ht
    rw [resolveBlockRange]
    simp only [hf, ht]
    rfl
  · rintro bh2 rfl rfl rfl n hn
    rw [resolveBlockRange]
    simp only [hn]
    rfl

/-- Witness for C1 on the unit-test chain: defaults give (10, 10), the
earliest-to-latest range gives (0, 10), a hash-only locator gives (0, 0),
and a toBlock of `earliest` yields the unchecked reversed range (10, 0). -/
theorem block_range_resolution_precedence_witness :
    resolveBlockRange testProvider paramsDefaults = .ok (10, 10) ∧
    resolveBlockRange testProvider paramsRange = .ok (0, 10) ∧
    resolveBlockRange testProvider paramsHashOnly = .ok (0, 0) ∧
    resolveBlockRange testProvider ⟨[], none, none, some "earliest", []⟩ = .ok (10, 0) :=
  ⟨(block_range_resolution_precedence testProvider paramsDefaults).2.1 rfl rfl rfl 10 rfl,
   (block_range_resolution_precedence testProvider paramsRange).2.2.2.2.1 "earliest" "latest"
     rfl rfl rfl 0 10 rfl rfl,
   (block_range_resolution_precedence testProvider paramsHashOnly).2.2.2.2.2 "H0"
     rfl rfl rfl 0 rfl,
   (block_range_resolution_precedence testProvider ⟨[], none, none, some "earliest", []⟩).2.2.1
     "earliest" rfl rfl rfl 10 0 rfl rfl⟩

/-- C2: a filter object carrying blockHash together with fromBlock or
toBlock fails validation with the mutual-exclusion error (code -32001),
and a request containing such an object yields an error with an empty
store trace: no store query was issued for it. -/
theorem ambiguous_range_rejected (p : Provider) (params : GetLogsParameters) (bh : String)
    (store : Store) (req : GetLogsRpcRequest)
    (out : Except ErrorObject GetLogsResponse × List String)
    (hbh : params.block_hash = some bh)
    (hor : params.from_block.isSome ∨ params.to_block.isSome)
    (hmem : params ∈ req.params)
    (hrun : getLogs p store req = some out) :
    ValidatedQueryParams.new p params = .error ⟨-32001, ambiguousRangeMsg⟩ ∧
    (∃ e, out.1 = .error e) ∧ out.2 = [] := by
  have hnew : ValidatedQueryParams.new p params = .error ⟨-32001, ambiguousRangeMsg⟩ := by
    obtain ⟨addr, pbh, fb, tb, tops⟩ := params
    simp only at hbh hor
    subst hbh
    rcases hor with hsome | hsome
    · obtain ⟨x, hx⟩ := Option.isSome_iff_exists.mp hsome
      subst hx
      rfl
    · obtain ⟨x, hx⟩ := Option.isSome_iff_exists.mp hsome
      subst hx
      cases fb <;> rfl
  refine ⟨hnew, ?_⟩
  rw [getLogs] at hrun
  cases hc : collectExcept (ValidatedQueryParams.new p) req.params with
  | error e =>
    rw [hc] at hrun
    injection hrun with hrun
    subst hrun
    exact ⟨⟨e, rfl⟩, rfl⟩
  | ok qs => exact absurd hc (collectExcept_ne_ok hmem hnew qs)

/-- Witness for C2 at the unit-test scenario: hash plus range is rejected
with code -32001 and the driver issues no store query. -/
theorem ambiguous_range_rejected_witness :
    ValidatedQueryParams.new testProvider paramsAmbiguous =
      .error ⟨-32001, ambiguousRangeMsg⟩ ∧
    (∃ e, (Prod.fst ((Except.error ⟨-32001, ambiguousRangeMsg⟩ :
        Except ErrorObject GetLogsResponse), ([] : List String))) = .error e) ∧
    (Prod.snd ((Except.error ⟨-32001, ambiguousRangeMsg⟩ :
        Except ErrorObject GetLogsResponse), ([] : List String))) = [] :=
  ambiguous_range_rejected testProvider paramsAmbiguous "H0" emptyStore reqAmbiguous
    (Except.error ⟨-32001, ambiguousRangeMsg⟩, []) rfl (Or.inl rfl)
    (List.mem_singleton.mpr rfl) rfl

/-- Counterexample to C3 as stated: a filter object with five topics AND a
blockHash-plus-range locator fails with the mutual-exclusion error
(code -32001), not with TooManyTopics (code 32002) — the topic-count check
runs only after block-range resolution, so the error is not independent of
the other fields. -/
theorem tooManyTopics_counterexample :
    ValidatedQueryParams.new testProvider paramsFiveTopicsAmbiguous =
      .error ⟨-32001, ambiguousRangeMsg⟩ ∧ (-32001 : Int) ≠ 32002 :=
  ⟨rfl, by decide⟩

/-- C3 (amended): a filter object with more than four topics never
validates successfully, and whenever its block-range resolution succeeds
(in particular, no mutual-exclusion violation and no resolver failure),
validation fails with the TooManyTopics error, code 32002. -/
theorem tooManyTopics_rejected (p : Provider) (params : GetLogsParameters)
    (h : params.topics.length > 4) :
    (∀ v, ValidatedQueryParams.new p params ≠ .ok v) ∧
    (∀ r, resolveBlockRange p params = .ok r →
      ValidatedQueryParams.new p params =
        .error ⟨32002, "Only up to four topics are allowed"⟩) := by
  constructor
  · intro v hv
    rw [ValidatedQueryParams.new] at hv
    cases hr : resolveBlockRange p params with
    | error e => rw [hr] at hv; cases hv
    | ok ft =>
      obtain ⟨f, t⟩ := ft
      rw [hr] at hv
      simp only at hv
      rw [if_pos h] at hv
      cases hv
  · intro r hr
    obtain ⟨f, t⟩ := r
    rw [ValidatedQueryParams.new, hr]
    simp only
    rw [if_pos h]

/-- Witness for C3's amended theorem: five topics with defaults-only block
fields fail with code 32002. -/
theorem tooManyTopics_witness :
    ValidatedQueryParams.new testProvider paramsFiveTopics =
      .error ⟨32002, "Only up to four topics are allowed"⟩ :=
  (tooManyTopics_rejected testProvider paramsFiveTopics (by decide)).2 (10, 10) rfl

/-- C4 (code bug): the topic equality clauses interpolate the raw
client-supplied topic string into the query text verbatim, with no
hex-literal encoding or quoting — here the topic value `raw OR 1=1` lands
in the rendered predicate unescaped. -/
theorem topic_clause_interpolates_raw_string :
    ValidatedQueryParams.render ⟨0, 0, [], ⟨some "raw OR 1=1", none, none, none⟩⟩ =
      some "WHERE block_number BETWEEN 0 AND 0 AND topic_0 = raw OR 1=1" := rfl

/-- Counterexample to C5 as stated: for the row with block number 10 and
log index 10, the wire log index is the decimal string `10` (not the hex
`a` or `0xa`), and the wire block number `000000000000000a` carries no
`0x` prefix. -/
theorem index_encoding_counterexample :
    (GetLogsResult.ofRow row10).log_index = "10" ∧
    (GetLogsResult.ofRow row10).log_index ≠ "a" ∧
    (GetLogsResult.ofRow row10).log_index ≠ "0xa" ∧
    (GetLogsResult.ofRow row10).block_number = "000000000000000a" ∧
    ((GetLogsResult.ofRow row10).block_number).data.take 2 ≠ ['0', 'x'] :=
  ⟨rfl, by decide, by decide, rfl, by decide⟩

theorem hexEncode_second_char {bs : List Nat} (h : bs.length = 8) :
    ∀ rest : List Char, (hexEncode bs).data ≠ '0' :: 'x' :: rest := by
  intro rest heq
  cases bs with
  | nil => cases h
  | cons b bs2 =>
    have hdata : (hexEncode (b :: bs2)).data =
        hexDigit (b / 16 % 16) :: hexDigit (b % 16) :: ((bs2.map hexEncodeByte).flatten) := by
      simp [hexEncode, hexEncodeByte]
    rw [hdata] at heq
    have hx : hexDigit (b % 16) = 'x' := by
      simp only [List.cons.injEq] at heq
      exact heq.2.1
    have hmem := hexDigit_mem_alphabet (Nat.mod_lt b (by norm_num))
    rw [hx] at hmem
    exact absurd hmem (by decide)

/-- C5 (amended): the wire block number is the hex encoding of the value's
8-byte big-endian representation — 16 hex characters, never starting with
`0x` — while the log index and transaction index are decimal strings. -/
theorem integer_field_encoding (row : RawGetLogsRow) :
    (GetLogsResult.ofRow row).block_number = hexEncode (i64ToBeBytes row.block_number) ∧
    (GetLogsResult.ofRow row).block_number.length = 16 ∧
    (∀ rest : List Char, ((GetLogsResult.ofRow row).block_number).data ≠ '0' :: 'x' :: rest) ∧
    (GetLogsResult.ofRow row).log_index = toString row.block_log_index ∧
    (GetLogsResult.ofRow row).transaction_index = toString row.transaction_index := by
  refine ⟨rfl, ?_, ?_, rfl, rfl⟩
  · show (hexEncode (i64ToBeBytes row.block_number)).length = 16
    rw [hexEncode_length, i64ToBeBytes, beBytes_length]
  · show ∀ rest : List Char, (hexEncode (i64ToBeBytes row.block_number)).data ≠ '0' :: 'x' :: rest
    exact hexEncode_second_char (by rw [i64ToBeBytes, beBytes_length])

theorem hexEncode_mem_alphabet (bs : List Nat) :
    ∀ c ∈ (hexEncode bs).data, c ∈ "0123456789abcdef".data := by
  induction bs with
  | nil => intro c hc; cases hc
  | cons b rest ih =>
    intro c hc
    have hdata : (hexEncode (b :: rest)).data =
        hexDigit (b / 16 % 16) :: hexDigit (b % 16) :: ((rest.map hexEncodeByte).flatten) := by
      simp [hexEncode, hexEncodeByte]
    rw [hdata] at hc
    rcases List.mem_cons.mp hc with rfl | hc2
    · exact hexDigit_mem_alphabet (Nat.mod_lt _ (by norm_num))
    · rcases List.mem_cons.mp hc2 with rfl | hc3
      · exact hexDigit_mem_alphabet (Nat.mod_lt _ (by norm_num))
      · exact ih c hc3

/-- C6: decoding a stored row maps every binary column to `0x` followed by
its lowercase hex encoding (every produced hex character is one of
`0123456789abcdef`), the log and transaction indices to decimal strings,
the block number to the hex of its big-endian byte representation, absent
topics to unset slots, and `removed` through unchanged. -/
theorem log_record_decoding (row : RawGetLogsRow) :
    (GetLogsResult.ofRow row).address = "0x" ++ hexEncode row.address ∧
    (GetLogsResult.ofRow row).block_hash = "0x" ++ hexEncode row.block_hash ∧
    (GetLogsResult.ofRow row).data = "0x" ++ hexEncode row.data ∧
    (GetLogsResult.ofRow row).transaction_hash = "0x" ++ hexEncode row.transaction_hash ∧
    (GetLogsResult.ofRow row).topics =
      ⟨row.topic_0.map fun t => "0x" ++ hexEncode t,
        row.topic_1.map fun t => "0x" ++ hexEncode t,
        row.topic_2.map fun t => "0x" ++ hexEncode t,
        row.topic_3.map fun t => "0x" ++ hexEncode t⟩ ∧
    (GetLogsResult.ofRow row).log_index = toString row.block_log_index ∧
    (GetLogsResult.ofRow row).transaction_index = toString row.transaction_index ∧
    (GetLogsResult.ofRow row).block_number = hexEncode (i64ToBeBytes row.block_number) ∧
    (GetLogsResult.ofRow row).removed = row.removed ∧
    (∀ bs : List Nat, ∀ c ∈ (hexEncode bs).data, c ∈ "0123456789abcdef".data) :=
  ⟨rfl, rfl, rfl, rfl, rfl, rfl, rfl, rfl, rfl, hexEncode_mem_alphabet⟩

/-- Witness for C6 at the concrete row: the hex alphabet membership holds
for the encoding of byte 171 (`ab`), and block number 10 decodes through
its big-endian bytes. -/
theorem log_record_decoding_witness :
    'a' ∈ "0123456789abcdef".data ∧
    (GetLogsResult.ofRow row10).block_number = hexEncode (i64ToBeBytes 10) :=
  ⟨(log_record_decoding row10).2.2.2.2.2.2.2.2.2 [171] 'a' (by decide),
   (log_record_decoding row10).2.2.2.2.2.2.2.1⟩

theorem filterMap_id_six (a : Option String) (r : String) (o0 o1 o2 o3 : Option String) :
    List.filterMap id [a, some r, o0, o1, o2, o3] =
      a.toList ++ [r] ++ o0.toList ++ o1.toList ++ o2.toList ++ o3.toList := by
  cases a <;> cases o0 <;> cases o1 <;> cases o2 <;> cases o3 <;> simp

theorem clause_list_not_empty (a : Option String) (r : String) (o0 o1 o2 o3 : Option String) :
    (a.toList ++ [r] ++ o0.toList ++ o1.toList ++ o2.toList ++ o3.toList).isEmpty = false := by
  cases a <;> cases o0 <;> cases o1 <;> cases o2 <;> cases o3 <;> rfl

theorem addressClause_eq (q : ValidatedQueryParams) (lits : List String)
    (h : q.addresses.mapM renderAddressLit = some lits) :
    addressClause q = some (if q.addresses.isEmpty then none
      else some ("address IN (" ++ String.intercalate ", " lits ++ ")")) := by
  rw [addressClause, h]
  cases haddr : q.addresses with
  | nil => rfl
  | cons a as => rfl

/-- C7: the rendered predicate is the `" AND "`-join, after `WHERE`, of the
clauses in the fixed order address list, block range, topic 0 to topic 3,
each omitted exactly when its field is empty or unset; the block-range
clause is always present, and with an empty address list and no topics the
join degenerates to that single clause. -/
theorem predicate_clause_order (q : ValidatedQueryParams) (lits : List String)
    (h : q.addresses.mapM renderAddressLit = some lits) :
    q.render = some ("WHERE " ++ String.intercalate " AND "
      ((if q.addresses.isEmpty then ([] : List String) else
          ["address IN (" ++ String.intercalate ", " lits ++ ")"]) ++
        [blockRangeStr q] ++ (topic0Clause q).toList ++ (topic1Clause q).toList ++
        (topic2Clause q).toList ++ (topic3Clause q).toList)) ∧
    (q.addresses = [] → q.topics = ⟨none, none, none, none⟩ →
      q.render = some ("WHERE " ++ blockRangeStr q)) := by
  have hrender : q.render = some ("WHERE " ++ String.intercalate " AND "
      ((if q.addresses.isEmpty then ([] : List String) else
          ["address IN (" ++ String.intercalate ", " lits ++ ")"]) ++
        [blockRangeStr q] ++ (topic0Clause q).toList ++ (topic1Clause q).toList ++
        (topic2Clause q).toList ++ (topic3Clause q).toList)) := by
    rw [ValidatedQueryParams.render, addressClause_eq q lits h]
    simp only
    rw [filterMap_id_six]
    cases he : q.addresses.isEmpty <;> simp [he, clause_list_not_empty]
  refine ⟨hrender, ?_⟩
  intro ha ht
  rw [hrender, ha]
  simp [topic0Clause, topic1Clause, topic2Clause, topic3Clause, ht, intercalate_singleton]

/-- Witness for C7: with an empty address list and no topics the rendered
predicate is exactly the block-range clause. -/
theorem predicate_clause_order_witness :
    ValidatedQueryParams.render ⟨0, 10, [], ⟨none, none, none, none⟩⟩ =
      some ("WHERE " ++ blockRangeStr ⟨0, 10, [], ⟨none, none, none, none⟩⟩) :=
  (predicate_clause_order ⟨0, 10, [], ⟨none, none, none, none⟩⟩ [] rfl).2 rfl rfl

/-- C8: a validation failure anywhere in the request aborts it with that
error and an empty store trace (all validation precedes any store I/O);
and a successful response requires every filter object to have validated
and every issued store query to have succeeded — so any store failure also
precludes a (partial) result list. -/
theorem request_fail_fast (p : Provider) (store : Store) (req : GetLogsRpcRequest) :
    (∀ e, collectExcept (ValidatedQueryParams.new p) req.params = .error e →
      getLogs p store req = some (.error e, [])) ∧
    (∀ resp trace, getLogs p store req = some (.ok resp, trace) →
      (∀ prm ∈ req.params, ∃ q, ValidatedQueryParams.new p prm = .ok q) ∧
      (∀ sql ∈ trace, ∃ rows, store.fetchAll sql = .ok rows)) := by
  constructor
  · intro e he
    rw [getLogs, he]
  · intro resp trace hok
    rw [getLogs] at hok
    cases hc : collectExcept (ValidatedQueryParams.new p) req.params with
    | error e => rw [hc] at hok; simp at hok
    | ok qs =>
      rw [hc] at hok
      simp only at hok
      constructor
      · intro prm hprm
        exact collectExcept_ok_mem hc hprm
      · cases hrq : runQueries store qs with
        | none => rw [hrq] at hok; cases hok
        | some pr =>
          obtain ⟨r, t⟩ := pr
          cases r with
          | error e => rw [hrq] at hok; simp at hok
          | ok results =>
            rw [hrq] at hok
            simp only [Option.some_inj, Prod.mk.injEq] at hok
            obtain ⟨-, ht⟩ := hok
            subst ht
            exact runQueries_trace_ok hrq

/-- Witness for C8: the request containing a mutually-exclusive filter
object aborts with its validation error and issues no store query. -/
theorem request_fail_fast_witness :
    getLogs testProvider emptyStore reqAmbiguous =
      some (.error ⟨-32001, ambiguousRangeMsg⟩, []) :=
  (request_fail_fast testProvider emptyStore reqAmbiguous).1
    ⟨-32001, ambiguousRangeMsg⟩ rfl

/-- C9: on the happy path the response's result list is the concatenation,
in filter-object order, of each object's store rows decoded in the store's
own order, and the queries are issued in the same order. -/
theorem result_order_preserved (p : Provider) (store : Store) (req : GetLogsRpcRequest)
    (qs : List ValidatedQueryParams)
    (hv : collectExcept (ValidatedQueryParams.new p) req.params = .ok qs)
    (hq : ∀ q ∈ qs, ∃ s rows, q.render = some s ∧
        store.fetchAll (baseStmt ++ " " ++ s) = .ok rows) :
    getLogs p store req = some (.ok ⟨req.id, req.json_rpc,
      (qs.map (expectedRows store)).flatten⟩,
      qs.filterMap fun q => (q.render).map fun s => baseStmt ++ " " ++ s) := by
  rw [getLogs, hv]
  simp only
  rw [runQueries_all_ok hq]

/-- Witness for C9: a one-object request against the sample store returns
exactly that object's decoded rows. -/
theorem result_order_preserved_witness :
    getLogs testProvider sampleStore reqDefaults = some (.ok ⟨reqDefaults.id,
      reqDefaults.json_rpc, ([qDefaults].map (expectedRows sampleStore)).flatten⟩,
      [qDefaults].filterMap fun q => (q.render).map fun s => baseStmt ++ " " ++ s) :=
  result_order_preserved testProvider sampleStore reqDefaults [qDefaults] rfl
    (by
      intro q hq
      rw [List.mem_singleton] at hq
      subst hq
      exact ⟨"WHERE address IN (X\x27123\x27) AND block_number BETWEEN 10 AND 10",
        [row10], rfl, rfl⟩)

theorem sliceFromByte2_eq_none_of_short {s : String} (h : utf8Len s < 2) :
    sliceFromByte2 s.data = none := by
  rw [utf8Len] at h
  cases hd : s.data with
  | nil => rfl
  | cons c rest =>
    rw [hd] at h
    simp only [List.map_cons, List.sum_cons] at h
    have hpos := Char.utf8Size_pos c
    have hc1 : c.utf8Size = 1 := by omega
    cases rest with
    | nil => simp [sliceFromByte2, hc1]
    | cons c2 r2 =>
      exfalso
      have := Char.utf8Size_pos c2
      simp only [List.map_cons, List.sum_cons] at h
      omega

/-- C10: validation copies the client address strings into the validated
object verbatim, with no normalization or length check; rendering slices
two bytes off each address, so it is total when every address has a
character boundary at byte 2 (in particular at least 2 bytes), and panics
(modelled as `none`) whenever some address is shorter than 2 bytes. -/
theorem address_passthrough_and_slice_panic (p : Provider) (params : GetLogsParameters) :
    (∀ v, ValidatedQueryParams.new p params = .ok v → v.addresses = params.address) ∧
    (∀ q : ValidatedQueryParams,
      (∀ addr ∈ q.addresses, (sliceFromByte2 addr.data).isSome) → (q.render).isSome) ∧
    (∀ q : ValidatedQueryParams, ∀ addr ∈ q.addresses, utf8Len addr < 2 →
      q.render = none) := by
  refine ⟨?_, ?_, ?_⟩
  · intro v hv
    rw [ValidatedQueryParams.new] at hv
    cases hr : resolveBlockRange p params with
    | error e => rw [hr] at hv; cases hv
    | ok ft =>
      obtain ⟨f, t⟩ := ft
      rw [hr] at hv
      simp only at hv
      split at hv
      · cases hv
      · injection hv with hv
        subst hv
        rfl
  · intro q hall
    have hex : ∃ ac, addressClause q = some ac := by
      rw [addressClause]
      cases haddr : q.addresses with
      | nil => exact ⟨none, rfl⟩
      | cons a as =>
        have hsome : ((a :: as).mapM renderAddressLit).isSome :=
          optionMapM_isSome (fun x hx => by
            have hx2 := hall x (haddr ▸ hx)
            rw [renderAddressLit]
            cases hsl : sliceFromByte2 x.data with
            | none => rw [hsl] at hx2; cases hx2
            | some r => rfl)
        obtain ⟨lits, hlits⟩ := Option.isSome_iff_exists.mp hsome
        refine ⟨some ("address IN (" ++ String.intercalate ", " lits ++ ")"), ?_⟩
        rw [hlits]
        rfl
    obtain ⟨ac, hac⟩ := hex
    rw [ValidatedQueryParams.render, hac]
    rfl
  · intro q addr hmem hlen
    have hslice : sliceFromByte2 addr.data = none := sliceFromByte2_eq_none_of_short hlen
    have hlit : renderAddressLit addr = none := by rw [renderAddressLit, hslice]; rfl
    have hmapm : q.addresses.mapM renderAddressLit = none := optionMapM_eq_none hmem hlit
    have hne : q.addresses.isEmpty = false := by
      cases haddr : q.addresses with
      | nil => rw [haddr] at hmem; cases hmem
      | cons a as => rfl
    have hac : addressClause q = none := by
      rw [addressClause, hmapm, hne]
      rfl
    rw [ValidatedQueryParams.render, hac]

/-- Witness for C10: addresses pass through unchanged; a one-byte address
makes rendering panic; a well-formed `0x`-prefixed address renders. -/
theorem address_passthrough_and_slice_panic_witness :
    qDefaults.addresses = paramsDefaults.address ∧
    ValidatedQueryParams.render ⟨0, 0, ["a"], ⟨none, none, none, none⟩⟩ = none ∧
    (ValidatedQueryParams.render ⟨0, 0, ["0x123"], ⟨none, none, none, none⟩⟩).isSome :=
  ⟨(address_passthrough_and_slice_panic testProvider paramsDefaults).1 qDefaults rfl,
   (address_passthrough_and_slice_panic testProvider paramsDefaults).2.2
     ⟨0, 0, ["a"], ⟨none, none, none, none⟩⟩ "a" (by decide) (by decide),
   (address_passthrough_and_slice_panic testProvider paramsDefaults).2.1
     ⟨0, 0, ["0x123"], ⟨none, none, none, none⟩⟩ (by decide)⟩
